import Mathlib

/-!
Shallow embedding of the contribution-qualification and aggregation pipeline
of src/bot/exts/halloween/hacktoberstats.py.

Conventions of the embedding:
  * Python dict accesses on JSON responses are modelled with Option fields;
    a dict access on a missing key evaluates to a thrown KeyError, a list
    index on an empty list to an IndexError (PyErr below).
  * datetime values are records of (year, month, day, hour, minute, second);
    datetime.strptime on the created_at string is modelled as the already
    parsed value carried by the search item (the fixed format has second
    resolution and no microseconds).
  * Network calls are injected: the search response is an input, the
    per-repository topics endpoint is a function from repository shortname
    to its parsed response.  The list of shortnames for which the topics
    endpoint was queried is returned alongside the result so that theorems
    can speak about the number of topic-lookup calls.
-/

/-- Python exceptions that the embedded code can raise. -/
inductive PyErr where
  | keyError (key : String)
  | indexError
deriving DecidableEq, Repr

/-- Python datetime truncated to second resolution, as produced by
strptime with format %Y-%m-%dT%H:%M:%SZ. -/
structure PyDateTime where
  year : Nat
  month : Nat
  day : Nat
  hour : Nat
  minute : Nat
  second : Nat
deriving DecidableEq, Repr

/-- Python datetime comparison: lexicographic on the six components. -/
def PyDateTime.ltb (a b : PyDateTime) : Bool :=
  if a.year < b.year then true
  else if b.year < a.year then false
  else if a.month < b.month then true
  else if b.month < a.month then false
  else if a.day < b.day then true
  else if b.day < a.day then false
  else if a.hour < b.hour then true
  else if b.hour < a.hour then false
  else if a.minute < b.minute then true
  else if b.minute < a.minute then false
  else decide (a.second < b.second)

/-- Line 284: oct3 = datetime(int(CURRENT_YEAR), 10, 3, 0, 0, 0).
CURRENT_YEAR (module line 19) is threaded as a parameter. -/
def oct3 (year : Nat) : PyDateTime := ⟨year, 10, 3, 0, 0, 0⟩

/-- Module line 20: PRS_FOR_SHIRT = 4. -/
def PRS_FOR_SHIRT : Nat := 4

/-- Module lines 27-30: the GitHub message for nonexistent or invisible users
(two concatenated string literals in the source). -/
def GITHUB_NONEXISTENT_USER_MESSAGE : String :=
  "The listed users cannot be searched either because the users do not exist " ++
  "or you do not have permission to view the users."

/-- One entry of jsonresp["items"] as used by the loop: its repository_url
string and its created_at value (already parsed by strptime). -/
structure Item where
  repository_url : String
  created_at : PyDateTime
deriving DecidableEq, Repr

/-- Lines 288-294: the dict built for each admitted PR. -/
structure ItemDict where
  repo_url : String
  repo_shortname : String
  created_at : PyDateTime
deriving DecidableEq, Repr

/-- Parsed jsonresp2 of the per-repository topics endpoint (lines 301-304):
a partial dict with optional "names" and "message" keys. -/
structure TopicsResp where
  names : Option (List String)
  message : Option String
deriving DecidableEq, Repr

/-- Parsed jsonresp of the issue-search endpoint (lines 259-261): optional
"message" and "errors" keys (each errors entry abbreviated to its "message"
string), the "total_count" and "items" fields, and an optional top-level
"labels" key.  Real search responses never carry a top-level "labels" key;
the field exists because line 311 accesses jsonresp["labels"]. -/
structure SearchResp where
  message : Option String
  errors : Option (List String)
  total_count : Nat
  items : List Item
  labels : Option (List String)
deriving DecidableEq, Repr

/-! ## The regex matcher of _get_shortname (lines 315-326)

The pattern is r"https?:\/\/api.github.com\/repos\/([/\-\_\.\w]+)":
the literal "http", an optional (greedy) "s", the literal "://api", any
non-newline character (unescaped dot), "github", any non-newline character,
"com/repos/", then a greedy nonempty capture of characters from the class
[/\-\_\.\w].  re.findall scans left to right and [0] takes the first match,
raising IndexError when there is none. -/

/-- Python \w for ASCII input: letters, digits and underscore. -/
def isWordChar (c : Char) : Bool := c.isAlphanum || c = '_'

/-- Character class [/\-\_\.\w] of the capture group. -/
def isClassChar (c : Char) : Bool :=
  c = '/' || c = '-' || c = '_' || c = '.' || isWordChar c

/-- Consume an exact literal run of characters, or fail. -/
def stripLit : List Char → List Char → Option (List Char)
  | [], s => some s
  | _ :: _, [] => none
  | p :: ps, c :: cs => if c = p then stripLit ps cs else none

/-- Consume one character for an unescaped dot (any character but newline). -/
def stripDot : List Char → Option (List Char)
  | [] => none
  | c :: cs => if c = '\n' then none else some cs

/-- Match everything after the optional "s": "://api" . "github" . "com/repos/"
followed by the greedy nonempty capture group, returned as the capture. -/
def matchTail (s : List Char) : Option (List Char) :=
  match stripLit [':', '/', '/', 'a', 'p', 'i'] s with
  | none => none
  | some s1 =>
    match stripDot s1 with
    | none => none
    | some s2 =>
      match stripLit ['g', 'i', 't', 'h', 'u', 'b'] s2 with
      | none => none
      | some s3 =>
        match stripDot s3 with
        | none => none
        | some s4 =>
          match stripLit ['c', 'o', 'm', '/', 'r', 'e', 'p', 'o', 's', '/'] s4 with
          | none => none
          | some s5 =>
            match s5.takeWhile isClassChar with
            | [] => none
            | c :: cs => some (c :: cs)

/-- Attempt a match anchored at the head of s: "http", then greedily try the
optional "s" (backtracking to the alternative without it). -/
def matchAt (s : List Char) : Option (List Char) :=
  match stripLit ['h', 't', 't', 'p'] s with
  | none => none
  | some s1 =>
    match s1 with
    | 's' :: rest =>
      match matchTail rest with
      | some cap => some cap
      | none => matchTail s1
    | _ => matchTail s1

/-- Leftmost match of the pattern anywhere in the string: the first element
of re.findall.  none models an empty findall result. -/
def findFirstMatch : List Char → Option (List Char)
  | [] => none
  | c :: cs =>
    match matchAt (c :: cs) with
    | some cap => some cap
    | none => findFirstMatch cs

/-- Lines 315-326: _get_shortname.  re.findall(exp, in_url)[0]; the [0] on an
empty findall result raises IndexError. -/
def get_shortname (in_url : String) : Except PyErr String :=
  match findFirstMatch in_url.data with
  | none => Except.error PyErr.indexError
  | some cap => Except.ok (String.mk cap)

/-! ## The candidate loop of get_october_prs (lines 281-313) -/

/-- Lines 288-294: the itemdict built from one search item and its extracted
shortname. -/
def itemdictOf (item : Item) (shortname : String) : ItemDict :=
  { repo_url := "https://www.github.com/" ++ shortname
    repo_shortname := shortname
    created_at := item.created_at }

/-- Lines 286-313: one pass over jsonresp["items"], building outlist.
Besides outlist, the list of shortnames for which the topics endpoint was
queried is returned (in query order) so that topic-lookup call counts are
observable.

Per item: extract the shortname (IndexError possible, line 287); admit
unconditionally when created_at < oct3 (lines 297-299); otherwise query the
topics endpoint (lines 301-304), and if "names" is missing first evaluate
jsonresp2["message"] inside log.error (line 307, KeyError when "message" is
also missing), then evaluate jsonresp2["names"] (line 311, KeyError), and
otherwise admit when "hacktoberfest" is among the names or, short-circuit
failing that, when "hacktoberfest-accpeted" is in jsonresp["labels"]
(KeyError: the search response carries no top-level "labels" key). -/
def processItems (year : Nat) (jsonresp : SearchResp) (topics : String → TopicsResp) :
    List Item → Except PyErr (List ItemDict × List String)
  | [] => Except.ok ([], [])
  | item :: rest =>
    match get_shortname item.repository_url with
    | Except.error e => Except.error e
    | Except.ok shortname =>
      let itemdict := itemdictOf item shortname
      if PyDateTime.ltb itemdict.created_at (oct3 year) then
        match processItems year jsonresp topics rest with
        | Except.error e => Except.error e
        | Except.ok r => Except.ok (itemdict :: r.1, r.2)
      else
        let jsonresp2 := topics shortname
        if jsonresp2.names.isNone && jsonresp2.message.isNone then
          Except.error (PyErr.keyError "message")
        else
          match jsonresp2.names with
          | none => Except.error (PyErr.keyError "names")
          | some names =>
            match (if "hacktoberfest" ∈ names then Except.ok true
                   else match jsonresp.labels with
                        | none => Except.error (PyErr.keyError "labels")
                        | some ls => Except.ok (decide ("hacktoberfest-accpeted" ∈ ls))) with
            | Except.error e => Except.error e
            | Except.ok admitted =>
              match processItems year jsonresp topics rest with
              | Except.error e => Except.error e
              | Except.ok r =>
                Except.ok ((if admitted then itemdict :: r.1 else r.1), shortname :: r.2)

/-- Heterogeneous return value of get_october_prs: False (error paths),
None (zero search matches), or the outlist. -/
inductive GetOctoberResult where
  | falseResult
  | noneResult
  | list (prs : List ItemDict)
deriving DecidableEq, Repr

/-- Lines 259-313: get_october_prs after the HTTP fetch.  When "message" is
present, api_message = jsonresp["errors"][0]["message"] is read (KeyError
when "errors" is missing, IndexError when it is empty), and both the
nonexistent-user branch and the other-failure branch return False.  When
total_count is 0 the bare return yields None.  Otherwise the item loop runs
and the outlist is returned. -/
def get_october_prs (year : Nat) (jsonresp : SearchResp) (topics : String → TopicsResp) :
    Except PyErr GetOctoberResult :=
  if jsonresp.message.isSome then
    match jsonresp.errors with
    | none => Except.error (PyErr.keyError "errors")
    | some [] => Except.error PyErr.indexError
    | some (api_message :: _) =>
      if api_message = GITHUB_NONEXISTENT_USER_MESSAGE then
        Except.ok GetOctoberResult.falseResult
      else
        Except.ok GetOctoberResult.falseResult
  else if jsonresp.total_count = 0 then
    Except.ok GetOctoberResult.noneResult
  else
    match processItems year jsonresp topics jsonresp.items with
    | Except.error e => Except.error e
    | Except.ok r => Except.ok (GetOctoberResult.list r.1)

/-! ## The aggregator _summarize_prs (lines 328-340) -/

/-- Keys of collections.Counter(l) in iteration order: each distinct element
once, ordered by first occurrence in l. -/
def counterKeys : List String → List String
  | [] => []
  | x :: xs => x :: (counterKeys xs).filter (fun s => decide (s ≠ x))

/-- The (element, multiplicity) pairs of collections.Counter(l), in the
first-occurrence order dict iteration yields. -/
def counterItems (l : List String) : List (String × Nat) :=
  (counterKeys l).map (fun s => (s, l.count s))

/-- Counter.most_common(n): the counter items sorted by count descending with
a stable sort (ties keep first-encounter order), truncated to n.  A stable
insertion sort is the model of heapq.nlargest with a count key. -/
def most_common (n : Nat) (l : List String) : List (String × Nat) :=
  (List.insertionSort (fun a b => b.2 ≤ a.2) (counterItems l)).take n

/-- Output dict of _summarize_prs. -/
structure PRStats where
  n_prs : Nat
  top5 : List (String × Nat)
deriving DecidableEq, Repr

/-- Line 339: contributed_repos = [pr["repo_shortname"] for pr in prs]. -/
def contributed_repos (prs : List ItemDict) : List String :=
  prs.map (fun pr => pr.repo_shortname)

/-- Lines 328-340: _summarize_prs. -/
def summarize_prs (prs : List ItemDict) : PRStats :=
  { n_prs := prs.length
    top5 := most_common 5 (contributed_repos prs) }

/-! ## The shirt/threshold branch of build_embed (lines 187-193) -/

/-- Discriminated form of the three shirt strings of build_embed. -/
inductive ShirtMsg where
  | earned
  | oneAway
  | away (n : Nat)
deriving DecidableEq, Repr

/-- Lines 187-193: n >= PRS_FOR_SHIRT earns the shirt, n == PRS_FOR_SHIRT - 1
is one PR away, otherwise the message names PRS_FOR_SHIRT - n. -/
def shirtMessage (n : Nat) : ShirtMsg :=
  if PRS_FOR_SHIRT ≤ n then ShirtMsg.earned
  else if n = PRS_FOR_SHIRT - 1 then ShirtMsg.oneAway
  else ShirtMsg.away (PRS_FOR_SHIRT - n)

/-- What get_stats (lines 173-180) sends: the stats embed for a truthy prs
value, the not-found/no-contributions text otherwise. -/
inductive StatsReply where
  | statsEmbed (stats : PRStats)
  | noValidContributions
deriving DecidableEq, Repr

/-- Lines 173-180: get_stats after the fetch.  Python truthiness of prs:
False, None and the empty list all fall to the else branch. -/
def get_stats (year : Nat) (jsonresp : SearchResp) (topics : String → TopicsResp) :
    Except PyErr StatsReply :=
  match get_october_prs year jsonresp topics with
  | Except.error e => Except.error e
  | Except.ok (GetOctoberResult.list (p :: ps)) =>
    Except.ok (StatsReply.statsEmbed (summarize_prs (p :: ps)))
  | Except.ok _ => Except.ok StatsReply.noValidContributions

/-! ## Concrete inputs used by witnesses, counterexamples and failing-input
evaluations -/

/-- Candidate created before the cutoff (2020-10-01 12:30:00). -/
def itemEarly : Item :=
  ⟨"https://api.github.com/repos/python-discord/seasonalbot", ⟨2020, 10, 1, 12, 30, 0⟩⟩

/-- Candidate created at/after the cutoff (2020-10-05 12:30:00). -/
def itemLate : Item :=
  ⟨"https://api.github.com/repos/python-discord/seasonalbot", ⟨2020, 10, 5, 12, 30, 0⟩⟩

/-- Successful search response carrying the given items (real responses carry
no top-level "labels" key). -/
def respWithItems (items : List Item) : SearchResp :=
  ⟨none, none, items.length, items, none⟩

/-- Error search response for a nonexistent user. -/
def respUserNotFound : SearchResp :=
  ⟨some "Validation Failed", some [GITHUB_NONEXISTENT_USER_MESSAGE], 0, [], none⟩

/-- Error search response for some other failure. -/
def respOtherFailure : SearchResp :=
  ⟨some "Validation Failed", some ["Something went wrong"], 0, [], none⟩

/-- Successful search response with zero matches. -/
def respZeroMatches : SearchResp := ⟨none, none, 0, [], none⟩

/-- Topics endpoint whose response never parses (no "names", no "message"):
never consulted on the grace-period path. -/
def anyTopics : String → TopicsResp := fun _ => ⟨none, none⟩

/-- Topics endpoint: every repository carries the hacktoberfest topic. -/
def topicsTagged : String → TopicsResp := fun _ => ⟨some ["hacktoberfest", "python"], none⟩

/-- Topics endpoint: topics present but without the hacktoberfest tag. -/
def topicsUntagged : String → TopicsResp := fun _ => ⟨some ["python"], none⟩

/-- Topics endpoint: malformed response, "names" missing, "message" present. -/
def topicsMalformed : String → TopicsResp := fun _ => ⟨none, some "Not Found"⟩

/-! ## C1: the grace-period rule -/

/-- C1: a candidate whose created_at is strictly before the cutoff (day 3 of
October, 00:00:00, in the reference year) is admitted unconditionally — for
every topics endpoint its itemdict is prepended to the outlist — and the
topic-lookup call log gains no entry for it. -/
theorem grace_period_admits_without_topic_lookup
    (year : Nat) (jsonresp : SearchResp) (topics : String → TopicsResp)
    (item : Item) (rest : List Item) (sn : String)
    (hsn : get_shortname item.repository_url = Except.ok sn)
    (hdate : PyDateTime.ltb item.created_at (oct3 year) = true) :
    processItems year jsonresp topics (item :: rest) =
      Except.map (fun r => (itemdictOf item sn :: r.1, r.2))
        (processItems year jsonresp topics rest) := by
  simp only [processItems, hsn, itemdictOf, hdate, if_true]
  cases hp : processItems year jsonresp topics rest <;> simp [Except.map]

/-- Witness for C1 at a concrete pre-cutoff candidate: the hypotheses hold
and no topics query is recorded. -/
theorem grace_period_admits_without_topic_lookup_witness :
    get_shortname itemEarly.repository_url = Except.ok "python-discord/seasonalbot" ∧
    PyDateTime.ltb itemEarly.created_at (oct3 2020) = true ∧
    processItems 2020 (respWithItems [itemEarly]) anyTopics [itemEarly] =
      Except.ok ([itemdictOf itemEarly "python-discord/seasonalbot"], []) :=
  ⟨rfl, rfl, by
    rw [grace_period_admits_without_topic_lookup 2020 (respWithItems [itemEarly]) anyTopics
      itemEarly [] "python-discord/seasonalbot" rfl rfl]
    rfl⟩

/-! ## C2: the post-cutoff topic gate -/

/-- C2 (code bug): a post-cutoff candidate whose repository topics contain
"hacktoberfest" is admitted, but one whose topics lack the tag is not
rejected: line 311 evaluates jsonresp["labels"] on the search response,
which carries no "labels" key, so the query raises KeyError instead. -/
theorem post_cutoff_untagged_crashes_on_labels :
    get_october_prs 2020 (respWithItems [itemLate]) topicsTagged =
      Except.ok (GetOctoberResult.list [itemdictOf itemLate "python-discord/seasonalbot"]) ∧
    get_october_prs 2020 (respWithItems [itemLate]) topicsUntagged =
      Except.error (PyErr.keyError "labels") := ⟨rfl, rfl⟩

/-! ## C3: per-candidate topic-lookup errors -/

/-- C3 (code bug): when the topic lookup for the first (post-cutoff)
candidate returns a malformed response, line 307 logs it but line 311 then
evaluates jsonresp2["names"] anyway, so the whole query raises KeyError
instead of rejecting that candidate and continuing with the remaining
pre-cutoff candidate. -/
theorem topic_lookup_error_aborts_pipeline :
    get_october_prs 2020 (respWithItems [itemLate, itemEarly]) topicsMalformed =
      Except.error (PyErr.keyError "names") := rfl

/-! ## C4: user-not-found versus the other outcomes -/

/-- Counterexample to C4 as stated: at concrete inputs the user-not-found
outcome equals the other-fetch-failure outcome (both are False), and the
caller sends the same reply for user-not-found as for zero matches. -/
theorem user_not_found_not_distinct_counterexample :
    get_october_prs 2020 respUserNotFound anyTopics =
      get_october_prs 2020 respOtherFailure anyTopics ∧
    get_stats 2020 respUserNotFound anyTopics =
      get_stats 2020 respZeroMatches anyTopics := ⟨rfl, rfl⟩

/-- C4 as amended: any error search response (message present, errors
nonempty) yields False, the same value other fetch failures yield; False is
distinct as a value from the zero-match outcome None and from any returned
list, but the caller get_stats replies with the same no-valid-contributions
message for all of them. -/
theorem user_not_found_conflated_with_other_failures
    (year : Nat) (resp : SearchResp) (topics : String → TopicsResp)
    (m : String) (ms : List String)
    (hmsg : resp.message.isSome = true)
    (herr : resp.errors = some (m :: ms)) :
    get_october_prs year resp topics = Except.ok GetOctoberResult.falseResult ∧
    GetOctoberResult.falseResult ≠ GetOctoberResult.noneResult ∧
    (∀ l, GetOctoberResult.falseResult ≠ GetOctoberResult.list l) ∧
    get_stats year resp topics = Except.ok StatsReply.noValidContributions := by
  have h1 : get_october_prs year resp topics = Except.ok GetOctoberResult.falseResult := by
    simp only [get_october_prs, hmsg, if_true, herr]
    split <;> rfl
  refine ⟨h1, by decide, ?_, ?_⟩
  · intro l h
    exact GetOctoberResult.noConfusion h
  · simp only [get_stats, h1]

/-- Witness for C4 as amended, at the nonexistent-user response. -/
theorem user_not_found_conflated_witness :
    respUserNotFound.message.isSome = true ∧
    respUserNotFound.errors = some (GITHUB_NONEXISTENT_USER_MESSAGE :: []) ∧
    get_october_prs 2020 respUserNotFound anyTopics =
      Except.ok GetOctoberResult.falseResult :=
  ⟨rfl, rfl,
    (user_not_found_conflated_with_other_failures 2020 respUserNotFound anyTopics
      GITHUB_NONEXISTENT_USER_MESSAGE [] rfl rfl).1⟩

/-! ## C10: the search-error path reads errors before returning -/

/-- C10: whenever the search response has a "message" key, the errors list is
read first: with no "errors" key the function raises KeyError, and with an
empty "errors" list it raises IndexError, instead of returning False. -/
theorem message_branch_reads_errors_first
    (year : Nat) (resp : SearchResp) (topics : String → TopicsResp)
    (hmsg : resp.message.isSome = true) :
    (resp.errors = none →
      get_october_prs year resp topics = Except.error (PyErr.keyError "errors")) ∧
    (resp.errors = some [] →
      get_october_prs year resp topics = Except.error PyErr.indexError) := by
  constructor <;> intro h <;> simp [get_october_prs, hmsg, h]

/-- Witness for C10: concrete rate-limit-style responses with "message" but
no usable "errors" crash with KeyError and IndexError respectively. -/
theorem message_branch_reads_errors_first_witness :
    (SearchResp.mk (some "API rate limit exceeded") none 0 [] none).message.isSome = true ∧
    get_october_prs 2020 (SearchResp.mk (some "API rate limit exceeded") none 0 [] none)
      anyTopics = Except.error (PyErr.keyError "errors") ∧
    get_october_prs 2020 (SearchResp.mk (some "API rate limit exceeded") (some []) 0 [] none)
      anyTopics = Except.error PyErr.indexError :=
  ⟨rfl,
    (message_branch_reads_errors_first 2020
      (SearchResp.mk (some "API rate limit exceeded") none 0 [] none) anyTopics rfl).1 rfl,
    (message_branch_reads_errors_first 2020
      (SearchResp.mk (some "API rate limit exceeded") (some []) 0 [] none) anyTopics rfl).2 rfl⟩

/-! ## C6: total_count equals the admitted-list length -/

/-- C6: for every admitted-candidates list handed to the aggregator, n_prs is
its length, and zero is attained on the empty list. -/
theorem total_count_eq_admitted_length :
    ∀ prs : List ItemDict,
      (summarize_prs prs).n_prs = prs.length ∧ (summarize_prs []).n_prs = 0 :=
  fun _ => ⟨rfl, rfl⟩

/-! ## C8: the shirt/threshold classifier -/

/-- C8: shirtMessage is earned exactly when the count is at least 4, one-away
exactly at 3, and otherwise reports 4 − count; counts 4 and 5 earn, count 0
is 4 away. -/
theorem shirt_threshold_classification :
    ∀ n : Nat,
      (shirtMessage n = ShirtMsg.earned ↔ 4 ≤ n) ∧
      (shirtMessage n = ShirtMsg.oneAway ↔ n = 3) ∧
      (n < 3 → shirtMessage n = ShirtMsg.away (4 - n)) ∧
      shirtMessage 4 = ShirtMsg.earned ∧
      shirtMessage 5 = ShirtMsg.earned ∧
      shirtMessage 0 = ShirtMsg.away 4 := by
  intro n
  have e1 : 4 ≤ n → shirtMessage n = ShirtMsg.earned := fun h => by
    simp [shirtMessage, PRS_FOR_SHIRT, h]
  have e2 : n = 3 → shirtMessage n = ShirtMsg.oneAway := fun h => by
    subst h; decide
  have e3 : n < 3 → shirtMessage n = ShirtMsg.away (4 - n) := fun h => by
    have h1 : ¬ 4 ≤ n := by omega
    have h2 : ¬ n = 4 - 1 := by omega
    simp [shirtMessage, PRS_FOR_SHIRT, h1, h2]
  have hc : n < 3 ∨ n = 3 ∨ 4 ≤ n := by omega
  refine ⟨⟨fun he => ?_, e1⟩, ⟨fun ho => ?_, e2⟩, e3, by decide, by decide, by decide⟩
  · rcases hc with h | h | h
    · rw [e3 h] at he
      exact ShirtMsg.noConfusion he
    · rw [e2 h] at he
      exact ShirtMsg.noConfusion he
    · exact h
  · rcases hc with h | h | h
    · rw [e3 h] at ho
      exact ShirtMsg.noConfusion ho
    · exact h
    · rw [e1 h] at ho
      exact ShirtMsg.noConfusion ho

/-- Witness for C8 at count 0: the otherwise branch reports 4 away. -/
theorem shirt_threshold_classification_witness :
    (0 : Nat) < 3 ∧ shirtMessage 0 = ShirtMsg.away (4 - 0) :=
  ⟨by decide, (shirt_threshold_classification 0).2.2.1 (by decide)⟩

/-! ## C9: _get_shortname on well-formed and non-matching URLs -/

/-- Character list of the literal part of a repository API URL. -/
def repoApiUrlChars : List Char :=
  ['h', 't', 't', 'p', 's', ':', '/', '/', 'a', 'p', 'i', '.', 'g', 'i', 't', 'h',
   'u', 'b', '.', 'c', 'o', 'm', '/', 'r', 'e', 'p', 'o', 's', '/']

/-- stripLit consumes exactly the pattern it is given. -/
theorem stripLit_append : ∀ p s, stripLit p (p ++ s) = some s
  | [], _ => rfl
  | c :: ps, s => by
    show (if c = c then stripLit ps (ps ++ s) else none) = some s
    rw [if_pos rfl]
    exact stripLit_append ps s

/-- The tail matcher consumes "://api", a dot, "github", a dot, "com/repos/"
and captures a wholly class-char suffix. -/
theorem matchTail_repos (c : Char) (cs : List Char)
    (hcl : (c :: cs).takeWhile isClassChar = c :: cs) :
    matchTail ([':', '/', '/', 'a', 'p', 'i'] ++
      ('.' :: (['g', 'i', 't', 'h', 'u', 'b'] ++
        ('.' :: (['c', 'o', 'm', '/', 'r', 'e', 'p', 'o', 's', '/'] ++ (c :: cs)))))) =
      some (c :: cs) := by
  have hdot : ('.' : Char) ≠ '\n' := by decide
  simp only [matchTail, stripLit_append, stripDot, if_neg hdot, hcl]

/-- A match anchored at the start of a well-formed repository API URL
captures the class-char suffix. -/
theorem matchAt_repos (c : Char) (cs : List Char)
    (hcl : (c :: cs).takeWhile isClassChar = c :: cs) :
    matchAt (repoApiUrlChars ++ (c :: cs)) = some (c :: cs) := by
  have h1 : repoApiUrlChars ++ (c :: cs) =
      ['h', 't', 't', 'p'] ++
        ('s' :: ([':', '/', '/', 'a', 'p', 'i'] ++
          ('.' :: (['g', 'i', 't', 'h', 'u', 'b'] ++
            ('.' :: (['c', 'o', 'm', '/', 'r', 'e', 'p', 'o', 's', '/'] ++ (c :: cs))))))) :=
    rfl
  rw [h1]
  simp only [matchAt, stripLit_append]
  rw [matchTail_repos c cs hcl]

/-- The leftmost findall match on a well-formed repository API URL is the
class-char suffix. -/
theorem findFirstMatch_repos (c : Char) (cs : List Char)
    (hcl : (c :: cs).takeWhile isClassChar = c :: cs) :
    findFirstMatch (repoApiUrlChars ++ (c :: cs)) = some (c :: cs) := by
  have h1 : repoApiUrlChars ++ (c :: cs) =
      'h' :: (['t', 't', 'p', 's', ':', '/', '/', 'a', 'p', 'i', '.', 'g', 'i', 't', 'h',
        'u', 'b', '.', 'c', 'o', 'm', '/', 'r', 'e', 'p', 'o', 's', '/'] ++ (c :: cs)) :=
    rfl
  rw [h1]
  simp only [findFirstMatch]
  rw [← h1, matchAt_repos c cs hcl]

/-- The well-formed direction of C9 over an arbitrary shortname. -/
theorem get_shortname_wellformed (sn : String) (hne : sn.data ≠ [])
    (hcls : ∀ c ∈ sn.data, isClassChar c = true) :
    get_shortname ("https://api.github.com/repos/" ++ sn) = Except.ok sn := by
  unfold get_shortname
  rw [String.data_append]
  have hpre : "https://api.github.com/repos/".data = repoApiUrlChars := rfl
  rw [hpre]
  cases hsd : sn.data with
  | nil => exact absurd hsd hne
  | cons c cs =>
    have hcl : (c :: cs).takeWhile isClassChar = c :: cs :=
      List.takeWhile_eq_self_iff.2 (fun a ha => hcls a (hsd ▸ ha))
    rw [findFirstMatch_repos c cs hcl, ← hsd]

/-- C9: extracting a shortname from any URL of the form
https://api.github.com/repos/ followed by a nonempty run of class characters
returns exactly that run, while an input without a pattern match — e.g. a
www.github.com display URL — falls into the IndexError branch of the
embedding instead of returning a value. -/
theorem shortname_match_or_index_error :
    (∀ sn : String, sn.data ≠ [] → (∀ c ∈ sn.data, isClassChar c = true) →
      get_shortname ("https://api.github.com/repos/" ++ sn) = Except.ok sn) ∧
    (∀ url : String, findFirstMatch url.data = none →
      get_shortname url = Except.error PyErr.indexError) ∧
    get_shortname "https://www.github.com/python-discord/seasonalbot" =
      Except.error PyErr.indexError := by
  refine ⟨fun sn h1 h2 => get_shortname_wellformed sn h1 h2, fun url h => ?_, rfl⟩
  simp [get_shortname, h]

/-- Witness for C9 at a concrete well-formed repository URL. -/
theorem shortname_match_or_index_error_witness :
    ("python-discord/seasonalbot" : String).data ≠ [] ∧
    get_shortname ("https://api.github.com/repos/" ++ "python-discord/seasonalbot") =
      Except.ok "python-discord/seasonalbot" :=
  ⟨by decide,
    shortname_match_or_index_error.1 "python-discord/seasonalbot" (by decide) (by decide)⟩

/-! ## C5: ordering and stability of top5 -/

/-- Ranking order of the top-5 display relative to the admitted repository
sequence: strictly greater count, or equal count and strictly earlier first
occurrence. -/
def rankedBefore (repos : List String) (a b : String × Nat) : Prop :=
  b.2 < a.2 ∨ (a.2 = b.2 ∧ List.indexOf a.1 repos < List.indexOf b.1 repos)

/-- The keys of a Counter are pairwise ordered by first-occurrence index. -/
theorem counterKeys_pairwise_indexOf (l : List String) :
    List.Pairwise (fun a b => List.indexOf a l < List.indexOf b l) (counterKeys l) := by
  induction l with
  | nil => exact List.Pairwise.nil
  | cons x xs ih =>
    simp only [counterKeys]
    refine List.Pairwise.cons ?_ ?_
    · intro b hb
      have hbne : b ≠ x := by
        have := (List.mem_filter.1 hb).2
        simpa using this
      rw [List.indexOf_cons_self, List.indexOf_cons_ne xs (Ne.symm hbne)]
      exact Nat.succ_pos _
    · have h1 := ih.filter (fun s => decide (s ≠ x))
      refine h1.imp_of_mem ?_
      intro a b ha hb hab
      have hane : a ≠ x := by
        have := (List.mem_filter.1 ha).2
        simpa using this
      have hbne : b ≠ x := by
        have := (List.mem_filter.1 hb).2
        simpa using this
      rw [List.indexOf_cons_ne xs (Ne.symm hane), List.indexOf_cons_ne xs (Ne.symm hbne)]
      exact Nat.succ_lt_succ hab

/-- Counter items inherit the first-occurrence ordering on their keys. -/
theorem counterItems_pairwise_indexOf (l : List String) :
    List.Pairwise (fun a b : String × Nat => List.indexOf a.1 l < List.indexOf b.1 l)
      (counterItems l) := by
  simp only [counterItems]
  rw [List.pairwise_map]
  exact counterKeys_pairwise_indexOf l

/-- Inserting an element below every earlier-seen element of equal count
preserves the ranking order. -/
theorem orderedInsert_pairwise_ranked (repos : List String) (x : String × Nat) :
    ∀ ys : List (String × Nat),
      List.Pairwise (rankedBefore repos) ys →
      (∀ y ∈ ys, x.2 = y.2 → List.indexOf x.1 repos < List.indexOf y.1 repos) →
      List.Pairwise (rankedBefore repos)
        (List.orderedInsert (fun a b => b.2 ≤ a.2) x ys) := by
  intro ys
  induction ys with
  | nil =>
    intro _ _
    simp [List.orderedInsert, List.pairwise_singleton]
  | cons y ys ih =>
    intro hp hx
    rcases List.pairwise_cons.1 hp with ⟨hy, hys⟩
    by_cases hle : y.2 ≤ x.2
    · rw [List.orderedInsert_of_le (fun a b : String × Nat => b.2 ≤ a.2) ys hle]
      refine List.Pairwise.cons ?_ hp
      intro z hz
      have hz2 : z.2 ≤ y.2 := by
        rcases List.mem_cons.1 hz with rfl | hzz
        · exact le_refl _
        · rcases hy z hzz with h | h
          · exact le_of_lt h
          · exact le_of_eq h.1.symm
      have hzx : z.2 ≤ x.2 := le_trans hz2 hle
      rcases lt_or_eq_of_le hzx with hlt | heq
      · exact Or.inl hlt
      · exact Or.inr ⟨heq.symm, hx z hz heq.symm⟩
    · simp only [List.orderedInsert, if_neg hle]
      refine List.Pairwise.cons ?_ (ih hys ?_)
      · intro z hz
        rcases (List.mem_orderedInsert _).1 hz with rfl | hz2
        · exact Or.inl (Nat.lt_of_not_le hle)
        · exact hy z hz2
      · intro y2 hy2 heq
        exact hx y2 (List.mem_cons_of_mem y hy2) heq

/-- The stable insertion sort of a list whose equal-count entries are in
first-occurrence order is pairwise ranked. -/
theorem insertionSort_pairwise_ranked (repos : List String) :
    ∀ l : List (String × Nat),
      List.Pairwise (fun a b : String × Nat => a.2 = b.2 →
        List.indexOf a.1 repos < List.indexOf b.1 repos) l →
      List.Pairwise (rankedBefore repos)
        (List.insertionSort (fun a b => b.2 ≤ a.2) l) := by
  intro l
  induction l with
  | nil =>
    intro _
    exact List.Pairwise.nil
  | cons x xs ih =>
    intro hp
    rcases List.pairwise_cons.1 hp with ⟨hx, hxs⟩
    rw [List.insertionSort]
    refine orderedInsert_pairwise_ranked repos x _ (ih hxs) ?_
    intro y hy heq
    exact hx y ((List.mem_insertionSort _).1 hy) heq

/-- top5 keeps at most five entries. -/
theorem summarize_top5_length_le (prs : List ItemDict) :
    (summarize_prs prs).top5.length ≤ 5 := by
  simp only [summarize_prs, most_common]
  rw [List.length_take]
  exact min_le_left _ _

/-- top5 is pairwise ranked with respect to the admitted repository
sequence. -/
theorem summarize_top5_pairwise (prs : List ItemDict) :
    List.Pairwise (rankedBefore (contributed_repos prs)) (summarize_prs prs).top5 := by
  simp only [summarize_prs, most_common]
  refine List.Pairwise.sublist (List.take_sublist 5 _) ?_
  refine insertionSort_pairwise_ranked (contributed_repos prs) _ ?_
  refine (counterItems_pairwise_indexOf (contributed_repos prs)).imp ?_
  intro a b h _
  exact h

/-- A minimal admitted PR for a given repository shortname. -/
def mkPR (s : String) : ItemDict :=
  ⟨"https://www.github.com/" ++ s, s, ⟨2020, 10, 1, 0, 0, 0⟩⟩

/-- C5: top5 has length at most 5 and is ordered so that every earlier entry
has a strictly greater count, or an equal count and a strictly earlier first
occurrence in the admitted sequence; the admitted repository sequence
A, B, A, C, B, A yields exactly [(A,3), (B,2), (C,1)]. -/
theorem top_repositories_sorted_stable :
    (∀ prs : List ItemDict,
      (summarize_prs prs).top5.length ≤ 5 ∧
      List.Pairwise (rankedBefore (contributed_repos prs)) (summarize_prs prs).top5) ∧
    (summarize_prs (List.map mkPR ["A", "B", "A", "C", "B", "A"])).top5 =
      [("A", 3), ("B", 2), ("C", 1)] :=
  ⟨fun prs => ⟨summarize_top5_length_le prs, summarize_top5_pairwise prs⟩, rfl⟩

/-! ## C7: the top5 counts sum to at most total_count -/

/-- Membership in Counter keys is membership in the list. -/
theorem mem_counterKeys (a : String) : ∀ l : List String, a ∈ counterKeys l ↔ a ∈ l := by
  intro l
  induction l with
  | nil => simp [counterKeys]
  | cons x xs ih =>
    simp only [counterKeys, List.mem_cons, List.mem_filter, ih]
    by_cases hax : a = x
    · simp [hax]
    · simp [hax]

/-- Counter keys are distinct. -/
theorem counterKeys_nodup (l : List String) : (counterKeys l).Nodup := by
  refine (counterKeys_pairwise_indexOf l).imp ?_
  intro a b h hab
  rw [hab] at h
  exact lt_irrefl _ h

/-- Splitting the sum of f over a duplicate-free list at a member x. -/
theorem sum_map_filter_ne (f : String → Nat) (x : String) :
    ∀ m : List String, m.Nodup → x ∈ m →
      (m.map f).sum = f x + ((m.filter (fun s => decide (s ≠ x))).map f).sum := by
  intro m
  induction m with
  | nil =>
    intro _ h
    cases h
  | cons y ys ih =>
    intro hnd hm
    rcases List.nodup_cons.1 hnd with ⟨hyn, hysnd⟩
    by_cases hyx : y = x
    · subst hyx
      have hfe : ys.filter (fun s => decide (s ≠ y)) = ys := by
        refine List.filter_eq_self.2 ?_
        intro a ha
        simp only [decide_eq_true_eq]
        intro h
        exact hyn (h ▸ ha)
      rw [List.filter_cons, if_neg (by simp), hfe]
      simp
    · rcases List.mem_cons.1 hm with h | hm2
      · exact absurd h.symm hyx
      · have hrec := ih hysnd hm2
        rw [List.filter_cons]
        have hpy : (fun s => decide (s ≠ x)) y = true := by simp [hyx]
        rw [if_pos hpy]
        simp only [List.map_cons, List.sum_cons, hrec]
        omega

/-- The multiplicities of a Counter sum to the length of the counted list. -/
theorem counterItems_sum_counts :
    ∀ l : List String, ((counterItems l).map (fun p => p.2)).sum = l.length := by
  have conv1 : ∀ (m : List String) (L : List String),
      ((m.map (fun s => (s, List.count s L))).map (fun p => p.2)) =
        m.map (fun s => List.count s L) := by
    intro m L
    rw [List.map_map]
    rfl
  intro l
  induction l with
  | nil => rfl
  | cons x xs ih =>
    have ih2 : ((counterKeys xs).map (fun s => List.count s xs)).sum = xs.length := by
      have h := ih
      rw [show counterItems xs =
        (counterKeys xs).map (fun s => (s, List.count s xs)) from rfl, conv1] at h
      exact h
    rw [show counterItems (x :: xs) =
      (counterKeys (x :: xs)).map (fun s => (s, List.count s (x :: xs))) from rfl, conv1]
    rw [show counterKeys (x :: xs) =
      x :: (counterKeys xs).filter (fun s => decide (s ≠ x)) from rfl]
    rw [List.map_cons, List.sum_cons, List.count_cons_self, List.length_cons]
    have hmapeq :
        ((counterKeys xs).filter (fun s => decide (s ≠ x))).map
            (fun s => List.count s (x :: xs)) =
          ((counterKeys xs).filter (fun s => decide (s ≠ x))).map
            (fun s => List.count s xs) := by
      refine List.map_congr_left ?_
      intro a ha
      have hane : a ≠ x := by
        have := (List.mem_filter.1 ha).2
        simpa using this
      exact List.count_cons_of_ne hane xs
    rw [hmapeq]
    by_cases hmem : x ∈ xs
    · have hsum' : ((counterKeys xs).map (fun s => List.count s xs)).sum =
          List.count x xs +
            (((counterKeys xs).filter (fun s => decide (s ≠ x))).map
              (fun s => List.count s xs)).sum :=
        sum_map_filter_ne (fun s => List.count s xs) x (counterKeys xs)
          (counterKeys_nodup xs) ((mem_counterKeys x xs).2 hmem)
      omega
    · have hcnt : List.count x xs = 0 := List.count_eq_zero.2 hmem
      have hfe : (counterKeys xs).filter (fun s => decide (s ≠ x)) = counterKeys xs := by
        refine List.filter_eq_self.2 ?_
        intro a ha
        simp only [decide_eq_true_eq]
        intro h
        exact hmem (h ▸ (mem_counterKeys a xs).1 ha)
      rw [hfe]
      omega

/-- The counts of a truncated list sum to at most the counts of the whole. -/
theorem sum_map_take_le (n : Nat) (L : List (String × Nat)) :
    ((L.take n).map (fun p => p.2)).sum ≤ (L.map (fun p => p.2)).sum := by
  conv_rhs => rw [← List.take_append_drop n L]
  rw [List.map_append, List.sum_append]
  exact Nat.le_add_right _ _

/-- C7: the counts listed in top5 sum to at most n_prs, with equality when at
most five distinct repositories occur among the admitted candidates. -/
theorem top5_counts_sum_le_total :
    ∀ prs : List ItemDict,
      ((summarize_prs prs).top5.map (fun p => p.2)).sum ≤ (summarize_prs prs).n_prs ∧
      ((counterKeys (contributed_repos prs)).length ≤ 5 →
        ((summarize_prs prs).top5.map (fun p => p.2)).sum = (summarize_prs prs).n_prs) := by
  intro prs
  have hperm := List.perm_insertionSort (fun a b : String × Nat => b.2 ≤ a.2)
    (counterItems (contributed_repos prs))
  have hsort : ((List.insertionSort (fun a b : String × Nat => b.2 ≤ a.2)
      (counterItems (contributed_repos prs))).map (fun p => p.2)).sum =
      (contributed_repos prs).length :=
    (hperm.map (fun p => p.2)).sum_eq.trans (counterItems_sum_counts _)
  have htop : (summarize_prs prs).top5 =
      (List.insertionSort (fun a b : String × Nat => b.2 ≤ a.2)
        (counterItems (contributed_repos prs))).take 5 := rfl
  have hn : (summarize_prs prs).n_prs = (contributed_repos prs).length := by
    simp [summarize_prs, contributed_repos]
  constructor
  · rw [htop, hn, ← hsort]
    exact sum_map_take_le 5 _
  · intro hlen
    rw [htop, hn]
    have hlen2 : (List.insertionSort (fun a b : String × Nat => b.2 ≤ a.2)
        (counterItems (contributed_repos prs))).length ≤ 5 := by
      rw [List.length_insertionSort]
      simpa [counterItems, List.length_map] using hlen
    rw [List.take_of_length_le hlen2]
    exact hsort

/-- Witness for C7 at the A, B, A, C, B, A example: three distinct
repositories, and the top5 counts sum to exactly n_prs = 6. -/
theorem top5_counts_sum_le_total_witness :
    (counterKeys (contributed_repos (List.map mkPR ["A", "B", "A", "C", "B", "A"]))).length ≤ 5 ∧
    ((summarize_prs (List.map mkPR ["A", "B", "A", "C", "B", "A"])).top5.map
        (fun p => p.2)).sum =
      (summarize_prs (List.map mkPR ["A", "B", "A", "C", "B", "A"])).n_prs :=
  ⟨by decide,
    (top5_counts_sum_le_total (List.map mkPR ["A", "B", "A", "C", "B", "A"])).2 (by decide)⟩
